import Mathlib

/-!
Verification of the plinth controller (`src/plinth/plinth_controller.py`).

This file gives a shallow embedding of the controller's pure control logic:
the stepper-motor state machine, the button debouncer, the LED pulse
animation's control flow, the input-loop maintenance-hold fragment, and the
OSC client's reconnect counter.  Side effects are made explicit:

* GPIO line writes performed by `write_output` are recorded as `(pin, value)`
  pairs in an explicit trace (most recent first);
* the LED brightness stored by `set_led_brightness` (the simulated
  `gpio_state['led_brightness']` entry / the real PWM duty cycle) is an
  `Option Nat` field;
* spawning of a pulse-animation thread by `threading.Thread(...).start()` is
  counted in a `pulse_tasks` field (a spawned task only ends after it observes
  `pulsing = false`, or when its function returns);
* wall-clock times (`time.time()`) are rationals.

Python names that are Lean keywords are suffixed with an underscore
(`open` becomes `open_`, `_connect` becomes `connect_`); the enum member
`MotorState.OPEN` becomes `MotorState.opened`.
-/

-- ===========================================================================
-- Configuration constants (class PlinthConfig)
-- ===========================================================================

/-- `PlinthConfig.DEBOUNCE_DELAY = 0.02` (20 ms). -/
def DEBOUNCE_DELAY : ℚ := 1 / 50

/-- `PlinthConfig.MAINTENANCE_HOLD_TIME = 4.0` seconds. -/
def MAINTENANCE_HOLD_TIME : ℚ := 4

/-- `PlinthConfig.MOTOR_STEPS_OPEN = 1000` (steps to fully open; the spec's
`STEPS_FULL`). -/
def MOTOR_STEPS_OPEN : Int := 1000

/-- `PlinthConfig.RECONNECT_ATTEMPTS = 10`. -/
def RECONNECT_ATTEMPTS : Nat := 10

/-- `PlinthConfig.GPIO_MOTOR_STEP = 23`. -/
def GPIO_MOTOR_STEP : Nat := 23

/-- `PlinthConfig.GPIO_MOTOR_DIR = 24`. -/
def GPIO_MOTOR_DIR : Nat := 24

/-- `PlinthConfig.GPIO_MOTOR_ENABLE = 25`. -/
def GPIO_MOTOR_ENABLE : Nat := 25

-- ===========================================================================
-- State enums
-- ===========================================================================

/-- `class MotorState(Enum)`; `OPEN` is rendered `opened` (Lean keyword). -/
inductive MotorState
  | idle
  | opening
  | closing
  | opened
  | closed
  | error
deriving DecidableEq, Repr

/-- `class PlinthState(Enum)`. -/
inductive PlinthState
  | idle
  | active
  | disabled
  | maintenance
deriving DecidableEq, Repr

-- ===========================================================================
-- Stepper motor (class StepperMotor)
-- ===========================================================================

/-- The mutable fields of `StepperMotor` guarded by its lock.  Positions are
integers: the code never clamps `current_position`, so it can in principle go
negative. -/
structure StepperMotor where
  state : MotorState
  current_position : Int
  target_position : Int
deriving DecidableEq, Repr

/-- `StepperMotor.open` (keyword-renamed).  Returns the updated motor and the
boolean result (`True` if the command was accepted). -/
def StepperMotor.open_ (m : StepperMotor) : StepperMotor × Bool :=
  if m.state = MotorState.idle ∨ m.state = MotorState.closed ∨
      m.state = MotorState.error then
    ({ m with state := MotorState.opening,
              target_position := MOTOR_STEPS_OPEN }, true)
  else
    (m, false)

/-- `StepperMotor.close`. -/
def StepperMotor.close (m : StepperMotor) : StepperMotor × Bool :=
  if m.state = MotorState.idle ∨ m.state = MotorState.opened ∨
      m.state = MotorState.error then
    ({ m with state := MotorState.closing, target_position := 0 }, true)
  else
    (m, false)

/-- `StepperMotor.stop`: forces `IDLE` and writes 0 to the enable line.  The
returned list is the trace of `write_output` calls. -/
def StepperMotor.stop_cmd (m : StepperMotor) : StepperMotor × List (Nat × Nat) :=
  ({ m with state := MotorState.idle }, [(GPIO_MOTOR_ENABLE, 0)])

/-- `StepperMotor.execute_step`.  The second component is the chronological
list of `write_output (pin, value)` calls performed during this call (the
1 ms `time.sleep` between the STEP-high and STEP-low writes has no effect on
the recorded trace).  Note the code early-returns only when the state is
`IDLE`. -/
def StepperMotor.execute_step (m : StepperMotor) : StepperMotor × List (Nat × Nat) :=
  if m.state = MotorState.idle then
    (m, [])
  else
    let dirPair : Int × (Nat × Nat) :=
      if m.current_position < m.target_position then
        (1, (GPIO_MOTOR_DIR, 1))
      else
        (-1, (GPIO_MOTOR_DIR, 0))
    let direction := dirPair.1
    let writes := [dirPair.2, (GPIO_MOTOR_ENABLE, 1),
                   (GPIO_MOTOR_STEP, 1), (GPIO_MOTOR_STEP, 0)]
    let pos := m.current_position + direction
    if pos = m.target_position then
      ({ m with current_position := pos,
                state := if direction = 1 then MotorState.opened
                         else MotorState.closed },
       writes ++ [(GPIO_MOTOR_ENABLE, 0)])
    else
      ({ m with current_position := pos }, writes)

/-- Iterate `execute_step` `n` times, accumulating the write trace with the
most recent write first. -/
def runSteps : Nat → StepperMotor → List (Nat × Nat) → StepperMotor × List (Nat × Nat)
  | 0, m, tr => (m, tr)
  | n + 1, m, tr =>
    let r := m.execute_step
    runSteps n r.1 (r.2.reverse ++ tr)

/-- The value left on a GPIO line by a (most-recent-first) write trace. -/
def lastWrite (tr : List (Nat × Nat)) (pin : Nat) : Option Nat :=
  (tr.find? (fun w => w.1 == pin)).map (fun w => w.2)

-- ===========================================================================
-- Claims about the stepper motor
-- ===========================================================================

/-- Claim C1.  The claim says `execute_step` is a no-op in each of the states
`Idle`, `Open`, `Closed`, `Error`.  The code only early-returns for `Idle`:
from `Closed` at position 0 it performs four line writes and drives the
position to `-1`, and from `Open` at position 1000 it steps the position back
to 999; from `Error` it also steps.  Only the `Idle` case is a no-op. -/
theorem execute_step_not_noop :
    (StepperMotor.execute_step ⟨MotorState.idle, 0, 0⟩ = (⟨MotorState.idle, 0, 0⟩, [])) ∧
    (StepperMotor.execute_step ⟨MotorState.closed, 0, 0⟩ =
      (⟨MotorState.closed, -1, 0⟩,
       [(GPIO_MOTOR_DIR, 0), (GPIO_MOTOR_ENABLE, 1),
        (GPIO_MOTOR_STEP, 1), (GPIO_MOTOR_STEP, 0)])) ∧
    ((StepperMotor.execute_step ⟨MotorState.opened, 1000, 1000⟩).1.current_position = 999) ∧
    ((StepperMotor.execute_step ⟨MotorState.opened, 1000, 1000⟩).2 ≠ []) ∧
    ((StepperMotor.execute_step ⟨MotorState.error, 5, 5⟩).1.current_position = 4) := by
  decide

/-- Claim C2.  The invariant `0 ≤ Position ≤ STEPS_FULL` fails: from the
initial state (`Idle`, position 0, target 0), `close()` is accepted (state
becomes `Closing` with target 0) and the next `execute_step` moves the
position to `-1`. -/
theorem position_invariant_violated :
    ((StepperMotor.close ⟨MotorState.idle, 0, 0⟩).2 = true) ∧
    (((StepperMotor.close ⟨MotorState.idle, 0, 0⟩).1.execute_step).1.current_position = -1) ∧
    ¬ (0 ≤ ((StepperMotor.close ⟨MotorState.idle, 0, 0⟩).1.execute_step).1.current_position) := by
  decide

/-- An `Opening` motor that is `n` steps below its target reaches the target
in exactly `n` calls to `execute_step`, ends in state `Open`, and the last
GPIO write of the run (the head of the most-recent-first trace) deasserts the
enable line. -/
theorem runSteps_opening (t : Int) : ∀ (n : Nat) (p : Int) (tr : List (Nat × Nat)),
    p + (n : Int) = t → p < t →
    ∃ rest, runSteps n ⟨MotorState.opening, p, t⟩ tr =
      (⟨MotorState.opened, t, t⟩, (GPIO_MOTOR_ENABLE, 0) :: rest) := by
  intro n
  induction n with
  | zero =>
    intro p tr h1 h2
    exact absurd h2 (by omega)
  | succ n ih =>
    intro p tr h1 h2
    by_cases hpt : p + 1 = t
    · have hn0 : n = 0 := by omega
      subst hn0
      refine ⟨[(GPIO_MOTOR_STEP, 0), (GPIO_MOTOR_STEP, 1),
               (GPIO_MOTOR_ENABLE, 1), (GPIO_MOTOR_DIR, 1)] ++ tr, ?_⟩
      simp [runSteps, StepperMotor.execute_step, h2, hpt]
    · have h2' : p + 1 < t := by omega
      have h1' : (p + 1) + (n : Int) = t := by push_cast at h1 ⊢; omega
      have hstep : runSteps (n + 1) ⟨MotorState.opening, p, t⟩ tr =
          runSteps n ⟨MotorState.opening, p + 1, t⟩
            ([(GPIO_MOTOR_STEP, 0), (GPIO_MOTOR_STEP, 1),
              (GPIO_MOTOR_ENABLE, 1), (GPIO_MOTOR_DIR, 1)] ++ tr) := by
        simp [runSteps, StepperMotor.execute_step, h2, hpt]
      rw [hstep]
      exact ih (p + 1) _ h1' h2'

/-- Claim C3.  From `Position = 0`, state `Closed`: `open()` is accepted, and
exactly `STEPS_FULL = 1000` calls to `execute_step` yield
`Position = 1000`, state `Open`, with the motor-enable line last written 0. -/
theorem motor_completion :
    ((StepperMotor.open_ ⟨MotorState.closed, 0, 0⟩).2 = true) ∧
    ((runSteps 1000 (StepperMotor.open_ ⟨MotorState.closed, 0, 0⟩).1 []).1 =
      ⟨MotorState.opened, 1000, 1000⟩) ∧
    (lastWrite (runSteps 1000 (StepperMotor.open_ ⟨MotorState.closed, 0, 0⟩).1 []).2
      GPIO_MOTOR_ENABLE = some 0) := by
  have hopen : StepperMotor.open_ ⟨MotorState.closed, 0, 0⟩ =
      (⟨MotorState.opening, 0, 1000⟩, true) := by decide
  obtain ⟨rest, hr⟩ := runSteps_opening 1000 1000 0 [] (by norm_num) (by norm_num)
  have h1000 : MOTOR_STEPS_OPEN = (1000 : Int) := rfl
  refine ⟨by rw [hopen], ?_, ?_⟩
  · rw [hopen]
    simp only []
    rw [hr]
  · rw [hopen]
    simp only []
    rw [hr]
    simp [lastWrite, List.find?, GPIO_MOTOR_ENABLE]

/-- Claim C8.  `open()` called in `Opening`, `Closing` or `Open` returns
`false` and leaves the whole motor record (state, position, target)
unchanged; symmetrically `close()` rejects from `Closing`, `Opening`,
`Closed`. -/
theorem motor_command_rejection (p t : Int) :
    (StepperMotor.open_ ⟨MotorState.opening, p, t⟩ = (⟨MotorState.opening, p, t⟩, false)) ∧
    (StepperMotor.open_ ⟨MotorState.closing, p, t⟩ = (⟨MotorState.closing, p, t⟩, false)) ∧
    (StepperMotor.open_ ⟨MotorState.opened, p, t⟩ = (⟨MotorState.opened, p, t⟩, false)) ∧
    (StepperMotor.close ⟨MotorState.closing, p, t⟩ = (⟨MotorState.closing, p, t⟩, false)) ∧
    (StepperMotor.close ⟨MotorState.opening, p, t⟩ = (⟨MotorState.opening, p, t⟩, false)) ∧
    (StepperMotor.close ⟨MotorState.closed, p, t⟩ = (⟨MotorState.closed, p, t⟩, false)) := by
  exact ⟨rfl, rfl, rfl, rfl, rfl, rfl⟩

-- ===========================================================================
-- GPIO handler LED state (class GPIOHandler)
-- ===========================================================================

/-- The observable LED-related state of `GPIOHandler`.

* `is_simulated` — whether the simulation fallback is active;
* `led_brightness` — the brightness last stored by `set_led_brightness`
  (the simulated `gpio_state['led_brightness']` entry, resp. the PWM duty
  value on real hardware); `none` before any write;
* `pulsing` — the shared cancellation flag polled by pulse-animation tasks;
* `pulse_tasks` — how many pulse-animation threads have been spawned and have
  not yet terminated.  `start_led_pulse` spawns one thread per call on real
  hardware; a thread only terminates after it observes `pulsing = false`
  (modelled by `pulse_task_exit`). -/
structure GPIOHandler where
  is_simulated : Bool
  led_brightness : Option Nat
  pulsing : Bool
  pulse_tasks : Nat
deriving DecidableEq, Repr

/-- `GPIOHandler.set_led_brightness` (both variants store/apply the value). -/
def GPIOHandler.set_led_brightness (g : GPIOHandler) (b : Nat) : GPIOHandler :=
  { g with led_brightness := some b }

/-- `GPIOHandler.start_led_pulse`.  In simulation mode the method logs and
returns before touching any state.  On real hardware it sets
`self.pulsing = True` and starts a new `pulse_animation` thread; it performs
no cancellation of a previously running task (the flag stays `true`
throughout, so an old task never observes a `false` flag and keeps
running). -/
def GPIOHandler.start_led_pulse (g : GPIOHandler) : GPIOHandler :=
  if g.is_simulated then g
  else { g with pulsing := true, pulse_tasks := g.pulse_tasks + 1 }

/-- `GPIOHandler.stop_led_pulse`: clears the shared flag. -/
def GPIOHandler.stop_led_pulse (g : GPIOHandler) : GPIOHandler :=
  { g with pulsing := false }

/-- A running pulse task terminates once it observes `pulsing = false`; while
the flag is `true` every task keeps running. -/
def GPIOHandler.pulse_task_exit (g : GPIOHandler) : GPIOHandler :=
  if g.pulsing then g else { g with pulse_tasks := g.pulse_tasks - 1 }

/-- `OSCServer._handle_led`: clamps the payload to `[0, 255]`, stops any
ongoing pulse, then sets the brightness. -/
def handle_led (g : GPIOHandler) (brightness : Int) : GPIOHandler :=
  let b : Int := max 0 (min 255 brightness)
  (g.stop_led_pulse).set_led_brightness b.toNat

-- ===========================================================================
-- Pulse animation control flow (start_led_pulse.pulse_animation)
-- ===========================================================================

/-- `steps = int(half_cycle / step_duration)` for the handler's fixed
parameters `pulse_freq = 2.0`, `step_duration = 0.02`:
`int((1/2.0/2) / 0.02) = int(12.5) = 12`. -/
def PULSE_STEPS : Nat := (Int.floor (((1 : ℚ) / 2 / 2) / (1 / 50))).toNat

/-- Brightness written by fade-in step `k`:
`int(min_brightness + brightness_range * step / steps)` with
`min = 50`, `max = 255`. -/
def pulse_brightness_in (k : Nat) : Nat :=
  (Int.floor ((50 : ℚ) + (255 - 50) * (k : ℚ) / (PULSE_STEPS : ℚ))).toNat

/-- Brightness written by fade-out step `k`:
`int(max_brightness - brightness_range * step / steps)`. -/
def pulse_brightness_out (k : Nat) : Nat :=
  (Int.floor ((255 : ℚ) - (255 - 50) * (k : ℚ) / (PULSE_STEPS : ℚ))).toNat

/-- `steps` evaluates to 12. -/
theorem PULSE_STEPS_eq : PULSE_STEPS = 12 := by
  norm_num [PULSE_STEPS]
  decide

/-- The first fade-in step writes the minimum brightness 50. -/
theorem pulse_brightness_in_zero : pulse_brightness_in 0 = 50 := by
  norm_num [pulse_brightness_in, PULSE_STEPS]
  decide

/-- Where `pulse_animation` is between two reads of `self.pulsing`:
at the outer `while` test, or before fade-in/fade-out step `k`. -/
inductive PulsePhase
  | whileCheck
  | fadeIn (k : Nat)
  | fadeOut (k : Nat)
deriving DecidableEq, Repr

/-- One observation of the `pulsing` flag by `pulse_animation`.  Returns the
brightness write performed right after the observation (if any) and the next
phase (`none` when the task function returns).  A `false` flag at the outer
`while` check falls through to `set_led_brightness(0)` and ends the task;
a `false` flag inside either fade loop hits a bare `return`. -/
def pulseObs : PulsePhase → Bool → Option Nat × Option PulsePhase
  | PulsePhase.whileCheck, false => (some 0, none)
  | PulsePhase.whileCheck, true => (none, some (PulsePhase.fadeIn 0))
  | PulsePhase.fadeIn _, false => (none, none)
  | PulsePhase.fadeIn k, true =>
      (some (pulse_brightness_in k),
       some (if k + 1 = PULSE_STEPS then PulsePhase.fadeOut 0
             else PulsePhase.fadeIn (k + 1)))
  | PulsePhase.fadeOut _, false => (none, none)
  | PulsePhase.fadeOut k, true =>
      (some (pulse_brightness_out k),
       some (if k + 1 = PULSE_STEPS then PulsePhase.whileCheck
             else PulsePhase.fadeOut (k + 1)))

/-- Prepend an optional brightness write to an accumulator. -/
def pushWrite (acc : List Nat) : Option Nat → List Nat
  | none => acc
  | some b => b :: acc

/-- Run `pulse_animation` against a script of `pulsing`-flag observations.
Returns the chronological list of brightness writes and whether the task
function returned within the script. -/
def pulseRun : PulsePhase → List Bool → List Nat → List Nat × Bool
  | _, [], acc => (acc.reverse, false)
  | ph, f :: rest, acc =>
    match pulseObs ph f with
    | (w, none) => ((pushWrite acc w).reverse, true)
    | (w, some ph2) => pulseRun ph2 rest (pushWrite acc w)

-- ===========================================================================
-- Claims C5, C6, C10
-- ===========================================================================

/-- Claim C5, counterexample.  On real hardware, with one pulse task already
active, a second `start_led_pulse` does not cancel the first: the flag is
never cleared in between, and a second animation thread is spawned, so two
pulse tasks are live at once — refuting "at most one pulse task exists per
plinth at any time". -/
theorem double_pulse_two_tasks :
    ((GPIOHandler.start_led_pulse
        (GPIOHandler.start_led_pulse ⟨false, none, false, 0⟩)).pulse_tasks = 2) ∧
    ¬ ((GPIOHandler.start_led_pulse
        (GPIOHandler.start_led_pulse ⟨false, none, false, 0⟩)).pulse_tasks ≤ 1) ∧
    ((GPIOHandler.start_led_pulse ⟨false, none, false, 0⟩).pulsing = true) := by
  decide

/-- Claim C5, amended.  A direct brightness write does cancel any active
pulse first (`_handle_led` clears the flag before writing, so afterwards no
pulse is active and the clamped brightness is stored); but `start_led_pulse`
performs no cancellation: on real hardware it leaves the flag `true` and
spawns one additional task on top of however many are already running. -/
theorem led_write_cancels_pulse :
    (∀ (g : GPIOHandler) (b : Int),
        (handle_led g b).pulsing = false ∧
        (handle_led g b).led_brightness = some (max 0 (min 255 b)).toNat) ∧
    (∀ g : GPIOHandler, g.is_simulated = false →
        (GPIOHandler.start_led_pulse g).pulsing = true ∧
        (GPIOHandler.start_led_pulse g).pulse_tasks = g.pulse_tasks + 1) := by
  constructor
  · intro g b
    exact ⟨rfl, rfl⟩
  · intro g h
    simp [GPIOHandler.start_led_pulse, h]

/-- Witness for `led_write_cancels_pulse` at a concrete real-hardware state
with one task already running. -/
theorem led_write_cancels_pulse_witness :
    ((⟨false, none, true, 1⟩ : GPIOHandler).is_simulated = false) ∧
    ((GPIOHandler.start_led_pulse ⟨false, none, true, 1⟩).pulse_tasks = 2) ∧
    ((handle_led ⟨false, none, true, 1⟩ 300).pulsing = false) := by
  refine ⟨rfl, ?_, ?_⟩
  · exact (led_write_cancels_pulse.2 ⟨false, none, true, 1⟩ rfl).2
  · exact (led_write_cancels_pulse.1 ⟨false, none, true, 1⟩ 300).1

/-- Claim C6.  If the running pulse task observes cancellation at a fade-loop
check (script: `while` check true, first fade-in check true — writing
brightness 50 — then a `false` flag at the second fade-in check), it returns
immediately: the write trace is `[50]` and no final 0 is written.  Only a
`false` flag observed at the outer `while` check produces the final
`set_led_brightness(0)`. -/
theorem pulse_cancel_skips_zero :
    (pulseRun PulsePhase.whileCheck [true, true, false] [] = ([50], true)) ∧
    ((pulseRun PulsePhase.whileCheck [true, true, false] []).1.getLast? ≠ some 0) ∧
    (pulseRun PulsePhase.whileCheck [false] [] = ([0], true)) := by
  have h : pulseRun PulsePhase.whileCheck [true, true, false] [] = ([50], true) := by
    simp [pulseRun, pulseObs, pushWrite, PULSE_STEPS_eq, pulse_brightness_in_zero]
  refine ⟨h, ?_, ?_⟩
  · rw [h]
    decide
  · simp [pulseRun, pulseObs, pushWrite]

/-- Claim C10.  In simulation mode `start_led_pulse` returns before setting
the `pulsing` flag, spawning a task, or touching the stored brightness: the
whole handler state is unchanged. -/
theorem start_led_pulse_simulated_noop (g : GPIOHandler)
    (h : g.is_simulated = true) : GPIOHandler.start_led_pulse g = g := by
  simp [GPIOHandler.start_led_pulse, h]

/-- Witness for `start_led_pulse_simulated_noop` at a concrete simulated
state. -/
theorem start_led_pulse_simulated_noop_witness :
    ((⟨true, some 5, false, 0⟩ : GPIOHandler).is_simulated = true) ∧
    (GPIOHandler.start_led_pulse ⟨true, some 5, false, 0⟩ = ⟨true, some 5, false, 0⟩) :=
  ⟨rfl, start_led_pulse_simulated_noop ⟨true, some 5, false, 0⟩ rfl⟩

-- ===========================================================================
-- Input-loop maintenance-hold fragment (PlinthController._input_loop)
-- ===========================================================================

/-- The controller state touched by the maintenance-hold branch of
`_input_loop`, plus an observation counter.  `trigger_count` counts how many
times the maintenance branch (the warning log, the `PlinthState.MAINTENANCE`
assignment and the motor toggle) has executed. -/
structure Controller where
  plinth_state : PlinthState
  stepper : StepperMotor
  trigger_count : Nat
deriving DecidableEq, Repr

/-- One input-loop tick's maintenance-hold check (lines 612-621), taken at
wall-clock time `now` while the button has been continuously held since
`press_time`.  There is no per-hold latch: whenever
`now - press_time > MAINTENANCE_HOLD_TIME` the branch runs — it sets the
plinth state to `Maintenance` and calls `open()` if the motor is `Closed`,
else `close()`. -/
def maintenance_tick (press_time now : ℚ) (c : Controller) : Controller :=
  if now - press_time > MAINTENANCE_HOLD_TIME then
    let c2 : Controller := { c with plinth_state := PlinthState.maintenance,
                                    trigger_count := c.trigger_count + 1 }
    if c2.stepper.state = MotorState.closed then
      { c2 with stepper := (c2.stepper.open_).1 }
    else
      { c2 with stepper := (c2.stepper.close).1 }
  else c

/-- Run the maintenance-hold check at each of a list of tick times during one
continuous hold that began at `press_time`. -/
def run_hold (press_time : ℚ) (ticks : List ℚ) (c : Controller) : Controller :=
  ticks.foldl (fun c t => maintenance_tick press_time t c) c

/-- Claim C4.  The maintenance branch has no per-hold latch.

* During one continuous hold (press at `t = 0`, motor initially `Closed`),
  the input-loop ticks at `t = 4.01` s and `t = 4.02` s both exceed the 4.0 s
  threshold and the trigger branch runs twice, not once.
* A tick at `t = 3.9` s (a hold shorter than the threshold) triggers
  nothing.
* In a longer hold the motor really is toggled twice: the tick at
  `t = 4.01` s starts `Opening`; the 2 ms motor loop then completes the 1000
  steps (by `t ≈ 6` s) leaving the motor `Open`, and the tick at `t = 6.5` s
  (same continuous hold) calls `close()`, which is accepted — the motor is
  `Closing` again. -/
theorem maintenance_retrigger :
    ((run_hold 0 [401 / 100, 402 / 100]
        ⟨PlinthState.idle, ⟨MotorState.closed, 0, 0⟩, 0⟩).trigger_count = 2) ∧
    (run_hold 0 [39 / 10] ⟨PlinthState.idle, ⟨MotorState.closed, 0, 0⟩, 0⟩ =
      ⟨PlinthState.idle, ⟨MotorState.closed, 0, 0⟩, 0⟩) ∧
    ((maintenance_tick 0 (401 / 100)
        ⟨PlinthState.idle, ⟨MotorState.closed, 0, 0⟩, 0⟩).stepper.state =
      MotorState.opening) ∧
    (maintenance_tick 0 (13 / 2)
        ⟨PlinthState.maintenance,
         (runSteps 1000
           (maintenance_tick 0 (401 / 100)
             ⟨PlinthState.idle, ⟨MotorState.closed, 0, 0⟩, 0⟩).stepper []).1,
         1⟩ =
      ⟨PlinthState.maintenance, ⟨MotorState.closing, 1000, 0⟩, 2⟩) := by
  have h401 : (401 / 100 : ℚ) - 0 > MAINTENANCE_HOLD_TIME := by
    norm_num [MAINTENANCE_HOLD_TIME]
  have h402 : (402 / 100 : ℚ) - 0 > MAINTENANCE_HOLD_TIME := by
    norm_num [MAINTENANCE_HOLD_TIME]
  have h39 : ¬ ((39 / 10 : ℚ) - 0 > MAINTENANCE_HOLD_TIME) := by
    norm_num [MAINTENANCE_HOLD_TIME]
  have h65 : (13 / 2 : ℚ) - 0 > MAINTENANCE_HOLD_TIME := by
    norm_num [MAINTENANCE_HOLD_TIME]
  have htick1 : maintenance_tick 0 (401 / 100)
      ⟨PlinthState.idle, ⟨MotorState.closed, 0, 0⟩, 0⟩ =
      ⟨PlinthState.maintenance, ⟨MotorState.opening, 0, 1000⟩, 1⟩ := by
    unfold maintenance_tick
    rw [if_pos h401]
    decide
  have htick2 : maintenance_tick 0 (402 / 100)
      ⟨PlinthState.maintenance, ⟨MotorState.opening, 0, 1000⟩, 1⟩ =
      ⟨PlinthState.maintenance, ⟨MotorState.opening, 0, 1000⟩, 2⟩ := by
    unfold maintenance_tick
    rw [if_pos h402]
    decide
  have hrun : (runSteps 1000 (⟨MotorState.opening, 0, 1000⟩ : StepperMotor) []).1 =
      ⟨MotorState.opened, 1000, 1000⟩ := by
    obtain ⟨rest, hr⟩ := runSteps_opening 1000 1000 0 [] (by norm_num) (by norm_num)
    rw [hr]
  have htick3 : maintenance_tick 0 (13 / 2)
      ⟨PlinthState.maintenance, ⟨MotorState.opened, 1000, 1000⟩, 1⟩ =
      ⟨PlinthState.maintenance, ⟨MotorState.closing, 1000, 0⟩, 2⟩ := by
    unfold maintenance_tick
    rw [if_pos h65]
    decide
  refine ⟨?_, ?_, ?_, ?_⟩
  · have hfold : run_hold 0 [401 / 100, 402 / 100]
        ⟨PlinthState.idle, ⟨MotorState.closed, 0, 0⟩, 0⟩ =
        maintenance_tick 0 (402 / 100)
          (maintenance_tick 0 (401 / 100)
            ⟨PlinthState.idle, ⟨MotorState.closed, 0, 0⟩, 0⟩) := rfl
    rw [hfold, htick1, htick2]
  · have hfold : run_hold 0 [39 / 10] ⟨PlinthState.idle, ⟨MotorState.closed, 0, 0⟩, 0⟩ =
        maintenance_tick 0 (39 / 10)
          ⟨PlinthState.idle, ⟨MotorState.closed, 0, 0⟩, 0⟩ := rfl
    rw [hfold]
    unfold maintenance_tick
    rw [if_neg h39]
  · rw [htick1]
  · rw [htick1]
    show maintenance_tick 0 (13 / 2)
        ⟨PlinthState.maintenance,
         (runSteps 1000 (⟨MotorState.opening, 0, 1000⟩ : StepperMotor) []).1, 1⟩ =
      ⟨PlinthState.maintenance, ⟨MotorState.closing, 1000, 0⟩, 2⟩
    rw [hrun, htick3]

-- ===========================================================================
-- OSC client (class OSCClient)
-- ===========================================================================

/-- The observable state of `OSCClient`: whether a connection handle exists
(`self.client is not None`), the reconnect counter, and an instrumentation
counter of how many connection attempts `_connect` has made. -/
structure OSCClient where
  client : Bool
  reconnect_count : Nat
  connect_attempts : Nat
deriving DecidableEq, Repr

/-- `OSCClient._connect` (keyword-renamed to `connect_`), parameterised by
whether the `SimpleUDPClient` constructor succeeds.  On success the handle is
set and the counter reset to 0; on failure the handle is cleared and the
counter left alone.  Either way one connection attempt is made. -/
def OSCClient.connect_ (ok : Bool) (c : OSCClient) : OSCClient :=
  if ok then
    { client := true, reconnect_count := 0,
      connect_attempts := c.connect_attempts + 1 }
  else
    { c with client := false, connect_attempts := c.connect_attempts + 1 }

/-- `OSCClient.reconnect`: increments the counter, resets it to 0 once it
exceeds `RECONNECT_ATTEMPTS` (after logging the warning), then calls
`_connect`. -/
def OSCClient.reconnect (ok : Bool) (c : OSCClient) : OSCClient :=
  let c1 : OSCClient := { c with reconnect_count := c.reconnect_count + 1 }
  let c2 : OSCClient :=
    if c1.reconnect_count > RECONNECT_ATTEMPTS then
      { c1 with reconnect_count := 0 }
    else c1
  OSCClient.connect_ ok c2

/-- `n` consecutive `reconnect()` calls during which every connection attempt
fails. -/
def reconnectFails : Nat → OSCClient → OSCClient
  | 0, c => c
  | n + 1, c => reconnectFails n (OSCClient.reconnect false c)

/-- The reconnect counter after one failing call, as a function of its
previous value. -/
theorem reconnect_fail_count (c : OSCClient) :
    (OSCClient.reconnect false c).reconnect_count =
      if c.reconnect_count + 1 > RECONNECT_ATTEMPTS then 0
      else c.reconnect_count + 1 := by
  simp [OSCClient.reconnect, OSCClient.connect_]
  split <;> rfl

/-- Counter evolution across any number of failing calls: it cycles through
`0, 1, ..., 10` with period 11. -/
theorem reconnectFails_count : ∀ (n : Nat) (c : OSCClient),
    c.reconnect_count ≤ 10 →
    (reconnectFails n c).reconnect_count = (c.reconnect_count + n) % 11 := by
  intro n
  induction n with
  | zero =>
    intro c h
    simp [reconnectFails]
    omega
  | succ n ih =>
    intro c h
    have h1 := reconnect_fail_count c
    rw [RECONNECT_ATTEMPTS] at h1
    have step : reconnectFails (n + 1) c =
        reconnectFails n (OSCClient.reconnect false c) := rfl
    rw [step, ih (OSCClient.reconnect false c) (by rw [h1]; split <;> omega)]
    rw [h1]
    split <;> omega

/-- Every call (failing or not) makes exactly one connection attempt. -/
theorem reconnectFails_attempts : ∀ (n : Nat) (c : OSCClient),
    (reconnectFails n c).connect_attempts = c.connect_attempts + n := by
  intro n
  induction n with
  | zero =>
    intro c
    simp [reconnectFails]
  | succ n ih =>
    intro c
    have hone : (OSCClient.reconnect false c).connect_attempts =
        c.connect_attempts + 1 := by
      simp only [OSCClient.reconnect, OSCClient.connect_]
      split <;> split <;> rfl
    have step : reconnectFails (n + 1) c =
        reconnectFails n (OSCClient.reconnect false c) := rfl
    rw [step, ih, hone]
    omega

/-- Claim C9.  Starting with the counter at 0 and every connection attempt
failing: each of the first 10 calls increments the counter by exactly 1
(after `k ≤ 10` calls it reads `k`); the counter returns to 0 strictly after
the 10th failed attempt, i.e. the 11th call resets it (and in general it
cycles with period 11); every call makes a fresh connection attempt, so
retries never stop; and a successful `reconnect()` sets the handle and resets
the counter to 0. -/
theorem reconnect_ceiling (c : OSCClient) (h : c.reconnect_count = 0) :
    (∀ k, k ≤ 10 → (reconnectFails k c).reconnect_count = k) ∧
    ((reconnectFails 11 c).reconnect_count = 0) ∧
    (∀ n, (reconnectFails n c).reconnect_count = n % 11) ∧
    (∀ n, (reconnectFails n c).connect_attempts = c.connect_attempts + n) ∧
    (∀ c' : OSCClient, (OSCClient.reconnect true c').reconnect_count = 0 ∧
        (OSCClient.reconnect true c').client = true) := by
  have hmod : ∀ n, (reconnectFails n c).reconnect_count = n % 11 := by
    intro n
    rw [reconnectFails_count n c (by omega)]
    omega
  refine ⟨?_, ?_, hmod, fun n => reconnectFails_attempts n c, ?_⟩
  · intro k hk
    rw [hmod k]
    omega
  · rw [hmod 11]
  · intro c'
    constructor
    · simp [OSCClient.reconnect, OSCClient.connect_]
    · simp [OSCClient.reconnect, OSCClient.connect_]

/-- Witness for `reconnect_ceiling` at the freshly constructed client
(handle absent, counter 0): the 10th failing call reads 10, the 11th
observes the reset to 0. -/
theorem reconnect_ceiling_witness :
    ((⟨false, 0, 0⟩ : OSCClient).reconnect_count = 0) ∧
    ((reconnectFails 10 ⟨false, 0, 0⟩).reconnect_count = 10) ∧
    ((reconnectFails 11 ⟨false, 0, 0⟩).reconnect_count = 0) := by
  have h := reconnect_ceiling ⟨false, 0, 0⟩ rfl
  exact ⟨rfl, h.1 10 (by omega), h.2.1⟩

-- ===========================================================================
-- Button debouncer (class ButtonDebouncer)
-- ===========================================================================

/-- The state of `ButtonDebouncer`: the last accepted stable value, the time
of the last accepted raw sample, and the `deque(maxlen=3)` of recent raw
readings (oldest first).  Raw values are the ints returned by
`GPIOHandler.read_input`. -/
structure ButtonDebouncer where
  last_stable_state : Nat
  last_read_time : ℚ
  read_history : List Nat
deriving DecidableEq, Repr

/-- `deque(maxlen=3).append`: push on the right, dropping the leftmost entry
when the deque already holds 3 items. -/
def dequePush (h : List Nat) (v : Nat) : List Nat :=
  if (h ++ [v]).length ≤ 3 then h ++ [v] else (h ++ [v]).tail

/-- `len(set(xs)) == 1` for a nonempty list: all entries equal. -/
def allSame : List Nat → Bool
  | [] => true
  | x :: xs => xs.all (fun y => y == x)

/-- `ButtonDebouncer.read`, with the current wall-clock time and the raw
`read_input` value passed explicitly.  Before `DEBOUNCE_DELAY` has elapsed it
returns the previous stable value and leaves the state untouched (no raw
reading is consumed); otherwise the raw value enters the window and the
stable value is updated only when the full 3-slot window agrees. -/
def ButtonDebouncer.read (d : ButtonDebouncer) (now : ℚ) (raw : Nat) :
    ButtonDebouncer × Nat :=
  if now - d.last_read_time < DEBOUNCE_DELAY then
    (d, d.last_stable_state)
  else
    let hist := dequePush d.read_history raw
    let stable := if hist.length = 3 ∧ allSame hist = true then raw
                  else d.last_stable_state
    (⟨stable, now, hist⟩, stable)

/-- Feed a list of `(time, raw)` samples through the debouncer. -/
def runD : ButtonDebouncer → List (ℚ × Nat) → ButtonDebouncer
  | d, [] => d
  | d, s :: rest => runD (d.read s.1 s.2).1 rest

/-- The sample times are each at least `DEBOUNCE_DELAY` after the previous
one (and the first at least `DEBOUNCE_DELAY` after `t`). -/
def wellSpaced : ℚ → List (ℚ × Nat) → Bool
  | _, [] => true
  | t, s :: rest =>
    if t + DEBOUNCE_DELAY ≤ s.1 then wellSpaced s.1 rest else false

/-- The time of the last sample in the list (`t` if the list is empty). -/
def lastTime : ℚ → List (ℚ × Nat) → ℚ
  | t, [] => t
  | _, s :: rest => lastTime s.1 rest

-- ---------------------------------------------------------------------------
-- Debouncer lemmas
-- ---------------------------------------------------------------------------

/-- A read at least `DEBOUNCE_DELAY` after the previous one takes the slow
path. -/
theorem read_slow (d : ButtonDebouncer) (now : ℚ) (raw : Nat)
    (h : d.last_read_time + DEBOUNCE_DELAY ≤ now) :
    d.read now raw =
      (⟨if (dequePush d.read_history raw).length = 3 ∧
            allSame (dequePush d.read_history raw) = true then raw
         else d.last_stable_state,
        now, dequePush d.read_history raw⟩,
       if (dequePush d.read_history raw).length = 3 ∧
            allSame (dequePush d.read_history raw) = true then raw
       else d.last_stable_state) := by
  unfold ButtonDebouncer.read
  rw [if_neg (by linarith)]

theorem wellSpaced_cons {t : ℚ} {s : ℚ × Nat} {rest : List (ℚ × Nat)}
    (h : wellSpaced t (s :: rest) = true) :
    t + DEBOUNCE_DELAY ≤ s.1 ∧ wellSpaced s.1 rest = true := by
  unfold wellSpaced at h
  split at h
  · exact ⟨by assumption, h⟩
  · exact absurd h (by simp)

/-- A well-spaced list splits into a well-spaced prefix and a well-spaced
suffix starting from the prefix's last sample time. -/
theorem wellSpaced_append : ∀ (a : List (ℚ × Nat)) (b : List (ℚ × Nat)) (t : ℚ),
    wellSpaced t (a ++ b) = true →
    wellSpaced t a = true ∧ wellSpaced (lastTime t a) b = true := by
  intro a
  induction a with
  | nil =>
    intro b t h
    exact ⟨rfl, h⟩
  | cons s rest ih =>
    intro b t h
    obtain ⟨h1, h2⟩ := wellSpaced_cons h
    obtain ⟨h3, h4⟩ := ih b s.1 h2
    refine ⟨?_, h4⟩
    unfold wellSpaced
    rw [if_pos h1]
    exact h3

/-- Across a well-spaced run, the history is the `dequePush`-fold of the raw
samples and the last-read time is the last sample time. -/
theorem runD_spec : ∀ (l : List (ℚ × Nat)) (d : ButtonDebouncer),
    wellSpaced d.last_read_time l = true →
    (runD d l).read_history =
      (l.map (fun s => s.2)).foldl dequePush d.read_history ∧
    (runD d l).last_read_time = lastTime d.last_read_time l := by
  intro l
  induction l with
  | nil =>
    intro d _
    exact ⟨rfl, rfl⟩
  | cons s rest ih =>
    intro d h
    obtain ⟨h1, h2⟩ := wellSpaced_cons h
    have hr := read_slow d s.1 s.2 h1
    have hT : (d.read s.1 s.2).1.last_read_time = s.1 := by rw [hr]
    have hH : (d.read s.1 s.2).1.read_history = dequePush d.read_history s.2 := by
      rw [hr]
    have h3 := ih (d.read s.1 s.2).1 (by rw [hT]; exact h2)
    have hstep : runD d (s :: rest) = runD (d.read s.1 s.2).1 rest := rfl
    constructor
    · rw [hstep, h3.1, hH]
      rfl
    · rw [hstep, h3.2, hT]
      rfl

/-- `runD` over an appended list runs the pieces in sequence. -/
theorem runD_append : ∀ (a : List (ℚ × Nat)) (b : List (ℚ × Nat)) (d : ButtonDebouncer),
    runD d (a ++ b) = runD (runD d a) b := by
  intro a
  induction a with
  | nil => intro b d; rfl
  | cons s rest ih =>
    intro b d
    have : runD d ((s :: rest) ++ b) = runD (d.read s.1 s.2).1 (rest ++ b) := rfl
    rw [this, ih]
    rfl

theorem suffix_append_right {l₁ l₂ : List Nat} (s : List Nat) (h : l₁ <:+ l₂) :
    l₁ ++ s <:+ l₂ ++ s := by
  obtain ⟨t, ht⟩ := h
  exact ⟨t, by rw [← List.append_assoc, ht]⟩

theorem dequePush_suffix (h : List Nat) (v : Nat) : dequePush h v <:+ h ++ [v] := by
  unfold dequePush
  split
  · exact List.suffix_refl _
  · exact List.tail_suffix _

/-- The history fold is always a suffix of the raw-sample list. -/
theorem foldl_dequePush_suffix : ∀ (s : List Nat) (h : List Nat),
    s.foldl dequePush h <:+ h ++ s := by
  intro s
  induction s with
  | nil =>
    intro h
    simp
  | cons v rest ih =>
    intro h
    have h1 : rest.foldl dequePush (dequePush h v) <:+ dequePush h v ++ rest := ih _
    have h2 : dequePush h v ++ rest <:+ (h ++ [v]) ++ rest :=
      suffix_append_right rest (dequePush_suffix h v)
    have h3 := h1.trans h2
    rw [List.append_assoc] at h3
    exact h3

/-- The most recent entry of the deque after a push is the pushed value. -/
theorem dequePush_getLast (h : List Nat) (v : Nat) :
    (dequePush h v).getLast? = some v := by
  unfold dequePush
  split
  · simp
  · cases h with
    | nil => simp_all
    | cons a t =>
      show ((a :: t ++ [v]).tail).getLast? = some v
      simp

/-- A length-3 window on which `len(set(...)) == 1` holds is three copies of
one value. -/
theorem length_three_allSame : ∀ {h : List Nat}, h.length = 3 →
    allSame h = true → ∃ v, h = [v, v, v] := by
  intro h h3 ha
  match h, h3 with
  | [a, b, c], _ =>
    simp [allSame] at ha
    exact ⟨a, by rw [ha.1, ha.2]⟩

/-- Claim C7.  For samples taken at or above `DEBOUNCE_DELAY` spacing,
starting from a fresh debouncer (empty history):

1. whenever the reported stable value changes at some sample, the last three
   raw samples taken are all equal to the new stable value (so a
   single-sample glitch surrounded by the opposite value can never change
   it); and
2. a call made before `DEBOUNCE_DELAY` has elapsed returns the previous
   stable value and leaves the debouncer untouched — independent of the raw
   line value, i.e. no new raw reading is taken. -/
theorem debounce_stability (d : ButtonDebouncer) (l : List (ℚ × Nat))
    (hh : d.read_history = [])
    (hw : wellSpaced d.last_read_time l = true) :
    (∀ (p : List (ℚ × Nat)) (x : ℚ × Nat) (s : List (ℚ × Nat)),
        l = p ++ x :: s →
        (runD d (p ++ [x])).last_stable_state ≠ (runD d p).last_stable_state →
        ∃ (l₁ : List Nat) (v : Nat),
          (p ++ [x]).map (fun q => q.2) = l₁ ++ [v, v, v] ∧
          (runD d (p ++ [x])).last_stable_state = v) ∧
    (∀ (now : ℚ) (raw : Nat), now - d.last_read_time < DEBOUNCE_DELAY →
        d.read now raw = (d, d.last_stable_state)) := by
  constructor
  · intro p x s hl hne
    subst hl
    have hw2 : wellSpaced d.last_read_time ((p ++ [x]) ++ s) = true := by
      simpa using hw
    obtain ⟨hwpx, _⟩ := wellSpaced_append (p ++ [x]) s d.last_read_time hw2
    obtain ⟨hwp, hwx⟩ := wellSpaced_append p [x] d.last_read_time hwpx
    have hx1 : lastTime d.last_read_time p + DEBOUNCE_DELAY ≤ x.1 :=
      (wellSpaced_cons hwx).1
    obtain ⟨hH, hT⟩ := runD_spec p d hwp
    have hsplit : runD d (p ++ [x]) = ((runD d p).read x.1 x.2).1 := by
      rw [runD_append]
      rfl
    have hx2 : (runD d p).last_read_time + DEBOUNCE_DELAY ≤ x.1 := by
      rw [hT]
      exact hx1
    have hr := read_slow (runD d p) x.1 x.2 hx2
    by_cases hcond : (dequePush (runD d p).read_history x.2).length = 3 ∧
        allSame (dequePush (runD d p).read_history x.2) = true
    · have hstable : (runD d (p ++ [x])).last_stable_state = x.2 := by
        rw [hsplit, hr]
        show (if (dequePush (runD d p).read_history x.2).length = 3 ∧
            allSame (dequePush (runD d p).read_history x.2) = true then x.2
          else (runD d p).last_stable_state) = x.2
        rw [if_pos hcond]
      obtain ⟨v, hv⟩ := length_three_allSame hcond.1 hcond.2
      have hfold : dequePush (runD d p).read_history x.2 =
          ((p ++ [x]).map (fun q => q.2)).foldl dequePush [] := by
        rw [hH, hh, List.map_append, List.foldl_append]
        rfl
      have hsuf : dequePush (runD d p).read_history x.2 <:+
          (p ++ [x]).map (fun q => q.2) := by
        rw [hfold]
        have h5 := foldl_dequePush_suffix ((p ++ [x]).map (fun q => q.2)) []
        simpa using h5
      obtain ⟨l₁, hl₁⟩ := hsuf
      have hlast : v = x.2 := by
        have h6 := dequePush_getLast (runD d p).read_history x.2
        rw [hv] at h6
        simpa using h6
      refine ⟨l₁, v, ?_, ?_⟩
      · rw [← hl₁, hv]
      · rw [hstable, hlast]
    · exfalso
      apply hne
      rw [hsplit, hr]
      show (if (dequePush (runD d p).read_history x.2).length = 3 ∧
          allSame (dequePush (runD d p).read_history x.2) = true then x.2
        else (runD d p).last_stable_state) = (runD d p).last_stable_state
      rw [if_neg hcond]
  · intro now raw h
    unfold ButtonDebouncer.read
    rw [if_pos h]

/-- Witness for `debounce_stability`: a fresh debouncer (stable 0, empty
history) fed three well-spaced raw samples of 1 (at t = 1, 2, 3 s) changes
its stable value to 1 at the third sample, and the three samples decompose as
required; a fourth read attempted only 10 ms after construction returns the
old stable value with the state untouched. -/
theorem debounce_stability_witness :
    (∃ (l₁ : List Nat) (v : Nat),
        ([((1 : ℚ), 1), ((2 : ℚ), 1), ((3 : ℚ), 1)].map (fun q => q.2) =
          l₁ ++ [v, v, v]) ∧
        (runD ⟨0, 0, []⟩
          [((1 : ℚ), 1), ((2 : ℚ), 1), ((3 : ℚ), 1)]).last_stable_state = v) ∧
    (ButtonDebouncer.read ⟨0, 0, []⟩ (1 / 100) 7 = (⟨0, 0, []⟩, 0)) := by
  have hws : wellSpaced (⟨0, 0, []⟩ : ButtonDebouncer).last_read_time
      [((1 : ℚ), 1), ((2 : ℚ), 1), ((3 : ℚ), 1)] = true := by
    show wellSpaced 0 [((1 : ℚ), 1), ((2 : ℚ), 1), ((3 : ℚ), 1)] = true
    norm_num [wellSpaced, DEBOUNCE_DELAY]
  have h := debounce_stability ⟨0, 0, []⟩
    [((1 : ℚ), 1), ((2 : ℚ), 1), ((3 : ℚ), 1)] rfl hws
  have e1 : ButtonDebouncer.read ⟨0, 0, []⟩ 1 1 = (⟨0, 1, [1]⟩, 0) := by
    rw [read_slow ⟨0, 0, []⟩ 1 1
      (by show (0 : ℚ) + DEBOUNCE_DELAY ≤ 1; norm_num [DEBOUNCE_DELAY])]
    simp [dequePush, allSame]
  have e2 : ButtonDebouncer.read ⟨0, 1, [1]⟩ 2 1 = (⟨0, 2, [1, 1]⟩, 0) := by
    rw [read_slow ⟨0, 1, [1]⟩ 2 1
      (by show (1 : ℚ) + DEBOUNCE_DELAY ≤ 2; norm_num [DEBOUNCE_DELAY])]
    simp [dequePush, allSame]
  have e3 : ButtonDebouncer.read ⟨0, 2, [1, 1]⟩ 3 1 = (⟨1, 3, [1, 1, 1]⟩, 1) := by
    rw [read_slow ⟨0, 2, [1, 1]⟩ 3 1
      (by show (2 : ℚ) + DEBOUNCE_DELAY ≤ 3; norm_num [DEBOUNCE_DELAY])]
    simp [dequePush, allSame]
  have hp : runD ⟨0, 0, []⟩ [((1 : ℚ), 1), ((2 : ℚ), 1)] = ⟨0, 2, [1, 1]⟩ := by
    simp [runD, e1, e2]
  have hpx : runD ⟨0, 0, []⟩ [((1 : ℚ), 1), ((2 : ℚ), 1), ((3 : ℚ), 1)] =
      ⟨1, 3, [1, 1, 1]⟩ := by
    simp [runD, e1, e2, e3]
  have hne : (runD ⟨0, 0, []⟩
        [((1 : ℚ), 1), ((2 : ℚ), 1), ((3 : ℚ), 1)]).last_stable_state ≠
      (runD ⟨0, 0, []⟩ [((1 : ℚ), 1), ((2 : ℚ), 1)]).last_stable_state := by
    rw [hp, hpx]
    simp
  refine ⟨?_, ?_⟩
  · exact h.1 [((1 : ℚ), 1), ((2 : ℚ), 1)] ((3 : ℚ), 1) [] rfl hne
  · exact h.2 (1 / 100) 7
      (by show (1 : ℚ) / 100 - 0 < DEBOUNCE_DELAY; norm_num [DEBOUNCE_DELAY])
